import Mathlib

/-!
Verification of the rss2bsky synchronization pipeline (src/rss2bsky/main.py).

The Python program is shallowly embedded: the configuration object, feed
entries and the cursor file become plain data; network effects (image
download, Bluesky publish calls, login attempts) become oracles passed as
function arguments and traces recorded in the run state; the main loop
becomes a fold over the (reversed) list of fetched entries.
-/

namespace Rss2Bsky

/-- Auxiliary: `pre` is a leading segment of `l` (character lists). -/
def beginsList : List Char → List Char → Bool
  | [], _ => true
  | _ :: _, [] => false
  | a :: pre, b :: l => a == b && beginsList pre l

/-- Python substring membership test `sub in s`. -/
def strContains (s sub : String) : Bool :=
  go s.data
where
  go : List Char → Bool
    | [] => beginsList sub.data []
    | a :: l => beginsList sub.data (a :: l) || go l

/-- Auxiliary for `afterFirst`: the remainder of `l` after the first
occurrence of `sub`, when `sub` occurs in `l`. -/
def afterFirstAux (sub : List Char) : List Char → Option (List Char)
  | [] => if beginsList sub [] then some [] else none
  | a :: l =>
      if beginsList sub (a :: l) then some ((a :: l).drop sub.length)
      else afterFirstAux sub l

/-- Python `s.split(sep, 1)[1]`: everything after the first occurrence of
`sep` in `s` (meaningful when `sep` occurs in `s`). -/
def afterFirst (s sep : String) : String :=
  String.mk ((afterFirstAux sep.data s.data).getD [])

/-- Python `s.strip()`: drop leading and trailing whitespace. -/
def pyStrip (s : String) : String :=
  String.mk (((s.data.dropWhile Char.isWhitespace).reverse.dropWhile
    Char.isWhitespace).reverse)

/-- Python `s.lower()` (ASCII case folding, as used on URL extensions). -/
def pyLower (s : String) : String :=
  String.mk (s.data.map Char.toLower)

/-- Python `s.endswith(suffix)`. -/
def strEndsWith (s suffix : String) : Bool :=
  beginsList suffix.data.reverse s.data.reverse

/-- Python truthiness for an optional string setting: `None` and the empty
string are falsy (`if splitter := settings.get("SPLITTER")`). -/
def truthy : Option String → Option String
  | none => none
  | some s => if s == "" then none else some s

/-- Python slicing `s[:n]` for an `Int` index `n` (negative `n` drops the
last `-n` characters). -/
def pySlice (s : String) (n : Int) : String :=
  if 0 ≤ n then String.mk (s.data.take n.toNat)
  else String.mk (s.data.take (s.length - (-n).toNat))

/-- The configuration values consulted by the pipeline (Dynaconf settings).
`SKIP_TAG` and `SPLITTER` are optional (`settings.get`), `START_POST_DATE`
defaults to the empty string. -/
structure Config where
  SKIP_TAG : Option String
  SPLITTER : Option String
  START_POST_DATE : String
deriving DecidableEq

/-- One element of a feedparser media collection; its `url` key may be
absent (`media_content[0].get("url")`). -/
structure MediaItem where
  url : Option String
deriving DecidableEq

/-- A feed entry as consumed by `main`: attribute accesses on feedparser
entries. `media_content` / `enclosures` are `none` when the key is absent. -/
structure Entry where
  title : String
  link : String
  published : String
  description : String
  media_content : Option (List MediaItem)
  enclosures : Option (List MediaItem)
deriving DecidableEq

/-- The value built by `client_utils.TextBuilder().text(body).link(linkText,
linkTarget)`: `body` is the string passed to `.text` (it already ends in the
joining space), `linkText` the visible link label, `linkTarget` the URI. -/
structure Message where
  body : String
  linkText : String
  linkTarget : String
deriving DecidableEq

/-- The rendered character length of a built message: the text segment plus
the visible link label. -/
def renderLength (m : Message) : Nat :=
  m.body.length + m.linkText.length

/-- `read_last_posted_date`: return the stripped cursor-file content, or
`None` when the file does not exist. The file system is the optional file
content. -/
def read_last_posted_date (file : Option String) : Option String :=
  match file with
  | some content => some (pyStrip content)
  | none => none

/-- `save_last_posted_date`: overwrite the cursor file wholesale with the
given published string. -/
def save_last_posted_date (pub_date : String) (_file : Option String) : Option String :=
  some pub_date

/-- `truncate_text(description, link, limit)`: apply the optional SPLITTER
cleanup, cut the body to `limit - len("Read post")` characters, and build
the message `body + " "` followed by the "Read post" link. -/
def truncate_text (cfg : Config) (description link : String) (limit : Nat) : Message :=
  let description :=
    match truthy cfg.SPLITTER with
    | some splitter =>
        if strContains description splitter then pyStrip (afterFirst description splitter)
        else description
    | none => description
  let link_text := "Read post"
  let max_description_length : Int := (limit : Int) - (link_text.length : Int)
  let description :=
    if (description.length : Int) > max_description_length then
      pySlice description max_description_length
    else description
  ⟨description ++ " ", link_text, link⟩

/-- `is_image(url)`: the lower-cased URL ends in one of the known raster
image extensions. -/
def is_image (url : String) : Bool :=
  strEndsWith (pyLower url) ".jpg" || strEndsWith (pyLower url) ".jpeg" ||
    strEndsWith (pyLower url) ".png" || strEndsWith (pyLower url) ".gif"

/-- One publish call performed on the Bluesky client. -/
inductive Call where
  | sendImage (message : Message) (image : List Nat) (alt : String)
  | sendPost (message : Message)
deriving DecidableEq

/-- `post_to_bluesky(client, message, image)`: an image post with the fixed
generic alt text when `image` is truthy (non-`None`, non-empty bytes), a
text-only post otherwise. -/
def post_to_bluesky (message : Message) (image : Option (List Nat)) : Call :=
  match image with
  | some bs => if bs.isEmpty then Call.sendPost message
      else Call.sendImage message bs "Image coming from the Fediverse"
  | none => Call.sendPost message

/-- The media collection `entry.get(media_key)` where `media_key` is
`"enclosures"` when that key is present and `"media_content"` otherwise. -/
def getMedia (e : Entry) : Option (List MediaItem) :=
  if e.enclosures.isSome then e.enclosures else e.media_content

/-- The media branch of the loop body: when the collection is truthy, call
`is_image` on the first candidate's optional `url` (an absent `url` raises —
modelled as `Except.error`), and download the image iff `is_image` holds.
`fetch` is `download_image`: `none` models a non-200 response. -/
def selectImage (fetch : String → Option (List Nat)) (e : Entry) :
    Except Unit (Option (List Nat)) :=
  match getMedia e with
  | none => Except.ok none
  | some [] => Except.ok none
  | some (m :: _) =>
      match m.url with
      | none => Except.error ()
      | some u => if is_image u then Except.ok (fetch u) else Except.ok none

/-- The skip-tag filter: a truthy SKIP_TAG occurring in the entry's
description. -/
def entrySkipped (cfg : Config) (e : Entry) : Bool :=
  match truthy cfg.SKIP_TAG with
  | some tag => strContains e.description tag
  | none => false

/-- One side of the date filter `not d or pub_date > d` (datetimes are
always truthy, so only `None` short-circuits). -/
def afterDate (pub : Int) : Option Int → Bool
  | none => true
  | some d => decide (pub > d)

/-- The parsed start boundary: `START_POST_DATE` parsed when non-empty,
otherwise `None`. `parse` stands for `datetime.strptime` with the
configured `DATE_FORMAT`, valued in an abstract totally ordered time. -/
def start_post_date (cfg : Config) (parse : String → Int) : Option Int :=
  if cfg.START_POST_DATE.isEmpty then none else some (parse cfg.START_POST_DATE)

/-- The message built for an entry at the loop's call site:
`truncate_text(entry.title, entry.link, 300)`. -/
def entryMessage (cfg : Config) (e : Entry) : Message :=
  truncate_text cfg e.title e.link 300

/-- First media candidate (if any) carries a `url`: exactly the condition
under which the media branch cannot raise. -/
def mediaOk (e : Entry) : Bool :=
  match getMedia e with
  | some (m :: _) => m.url.isSome
  | _ => true

/-- Observable state of one run: publish calls in order (paired with the
entry they post), cursor-file writes in order, current cursor-file content,
and whether the run has aborted with an uncaught exception. -/
structure RunState where
  posts : List (Entry × Call)
  writes : List String
  file : Option String
  aborted : Bool
deriving DecidableEq

/-- The loop body of `main` for a single entry. An aborted run processes
nothing further. -/
def stepEntry (cfg : Config) (fetch : String → Option (List Nat))
    (parse : String → Int) (lastPosted startD : Option Int)
    (st : RunState) (e : Entry) : RunState :=
  if st.aborted then st
  else if entrySkipped cfg e then st
  else
    let pub_date := parse e.published
    if afterDate pub_date lastPosted && afterDate pub_date startD then
      match selectImage fetch e with
      | Except.error _ => ⟨st.posts, st.writes, st.file, true⟩
      | Except.ok image =>
          ⟨st.posts ++ [(e, post_to_bluesky (entryMessage cfg e) image)],
           st.writes ++ [e.published],
           save_last_posted_date e.published st.file,
           st.aborted⟩
    else st

/-- Folding the loop body over a list of entries. -/
def runEntries (cfg : Config) (fetch : String → Option (List Nat))
    (parse : String → Int) (lastPosted startD : Option Int) :
    RunState → List Entry → RunState
  | st, [] => st
  | st, e :: rest =>
      runEntries cfg fetch parse lastPosted startD
        (stepEntry cfg fetch parse lastPosted startD st e) rest

/-- The starting run state over an initial cursor file. -/
def initState (file0 : Option String) : RunState :=
  ⟨[], [], file0, false⟩

/-- `main`: read the cursor, parse it when present, and process the fetched
entries in reverse order. -/
def runMain (cfg : Config) (fetch : String → Option (List Nat))
    (parse : String → Int) (file0 : Option String)
    (entries : List Entry) : RunState :=
  let lastPosted := (read_last_posted_date file0).map parse
  runEntries cfg fetch parse lastPosted (start_post_date cfg parse)
    (initState file0) entries.reverse

/-- Observable events of `get_client`'s retry loop. -/
inductive AuthEvent where
  | sleep (seconds : Nat)
  | log (msg : String)
deriving DecidableEq

/-- The `except RequestException` branch of `get_client`: print and sleep a
day when the message mentions RateLimitExceeded, then log the message. -/
def loginFailureEvents (msg : String) : List AuthEvent :=
  (if strContains msg "RateLimitExceeded" then
    [AuthEvent.log "Rate Limited", AuthEvent.sleep 86400]
  else []) ++ [AuthEvent.log msg]

/-- `get_client`: the acquisition loop `while client is None`. `construct i`
is the outcome of iteration `i`'s `Client()` call and `login i` that
iteration's `client.login(...)`. Because `client = Client()` binds the
variable before `login` runs, a caught login failure leaves `client`
non-`None`: the while condition is then false and the function returns the
unauthenticated client with that failure's events. Only a failing
`Client()` constructor leaves `client` unbound and iterates again. The
result pairs the returned client's authentication status with the event
trace, `none` when `fuel` constructor failures did not end the loop. -/
def get_client (construct login : Nat → Except String Unit) :
    Nat → Nat → Option (Bool × List AuthEvent)
  | 0, _ => none
  | fuel + 1, i =>
      match construct i with
      | Except.error msg =>
          (get_client construct login fuel (i + 1)).map
            (fun r => (r.1, loginFailureEvents msg ++ r.2))
      | Except.ok _ =>
          match login i with
          | Except.ok _ => some (true, [])
          | Except.error msg => some (false, loginFailureEvents msg)

/-! Concrete data for witnesses and counterexamples. -/

/-- A configuration with no optional markers and no start boundary. -/
def cfg0 : Config := ⟨none, none, ""⟩

/-- A download oracle that always fails (non-200). -/
def fetch0 : String → Option (List Nat) := fun _ => none

/-- A concrete date parser for witness runs: the length of the published
string (so "1" parses before "22", which parses before "333"). -/
def parse0 : String → Int := fun s => (s.length : Int)

/-- A media-free entry publishing at the given date string. -/
def mkEntry (pub : String) : Entry :=
  ⟨"t", "http://x/p", pub, "d", none, none⟩

/-! Characterization of one loop iteration. -/

/-- The combined filter decision of the loop body: not skip-tagged, newer
than the cursor, newer than the start boundary. -/
def publishes (cfg : Config) (parse : String → Int) (lp sd : Option Int) (e : Entry) : Bool :=
  !entrySkipped cfg e &&
    (afterDate (parse e.published) lp && afterDate (parse e.published) sd)

theorem stepEntry_of_aborted {cfg : Config} {fetch : String → Option (List Nat)}
    {parse : String → Int} {lp sd : Option Int} {st : RunState} (e : Entry)
    (h : st.aborted = true) : stepEntry cfg fetch parse lp sd st e = st := by
  simp [stepEntry, h]

theorem stepEntry_of_skipped {cfg : Config} {fetch : String → Option (List Nat)}
    {parse : String → Int} {lp sd : Option Int} {st : RunState} {e : Entry}
    (h : entrySkipped cfg e = true) : stepEntry cfg fetch parse lp sd st e = st := by
  by_cases hab : st.aborted <;> simp [stepEntry, hab, h]

theorem stepEntry_of_not_publishes {cfg : Config} {fetch : String → Option (List Nat)}
    {parse : String → Int} {lp sd : Option Int} {st : RunState} {e : Entry}
    (h : publishes cfg parse lp sd e = false) :
    stepEntry cfg fetch parse lp sd st e = st := by
  unfold publishes at h
  by_cases hab : st.aborted
  · simp [stepEntry, hab]
  · by_cases hsk : entrySkipped cfg e
    · exact stepEntry_of_skipped hsk
    · simp only [hsk, Bool.not_false, Bool.true_and] at h
      simp [stepEntry, hab, hsk, h]

theorem stepEntry_publish {cfg : Config} {fetch : String → Option (List Nat)}
    {parse : String → Int} {lp sd : Option Int} {st : RunState} {e : Entry}
    {img : Option (List Nat)} (hab : st.aborted = false)
    (hp : publishes cfg parse lp sd e = true)
    (himg : selectImage fetch e = Except.ok img) :
    stepEntry cfg fetch parse lp sd st e =
      ⟨st.posts ++ [(e, post_to_bluesky (entryMessage cfg e) img)],
       st.writes ++ [e.published], some e.published, false⟩ := by
  unfold publishes at hp
  simp only [Bool.and_eq_true, Bool.not_eq_true'] at hp
  obtain ⟨hsk, hdates⟩ := hp
  simp [stepEntry, hab, hsk, hdates.1, hdates.2, himg, save_last_posted_date]

theorem stepEntry_publish_err {cfg : Config} {fetch : String → Option (List Nat)}
    {parse : String → Int} {lp sd : Option Int} {st : RunState} {e : Entry}
    (hab : st.aborted = false) (hp : publishes cfg parse lp sd e = true)
    (himg : selectImage fetch e = Except.error ()) :
    stepEntry cfg fetch parse lp sd st e = ⟨st.posts, st.writes, st.file, true⟩ := by
  unfold publishes at hp
  simp only [Bool.and_eq_true, Bool.not_eq_true'] at hp
  obtain ⟨hsk, hdates⟩ := hp
  simp [stepEntry, hab, hsk, hdates.1, hdates.2, himg]

/-! Claim C8. -/

/-- Claim C8: saving a cursor writes exactly the literal published string as
the whole file content, wholesale-overwriting any previous content; loading
returns the previously saved string whitespace-stripped, and returns none
when no cursor file exists. -/
theorem c8_cursor_roundtrip (s : String) (fs : Option String) :
    read_last_posted_date (save_last_posted_date s fs) = some (pyStrip s) ∧
    save_last_posted_date s fs = some s ∧
    read_last_posted_date none = none :=
  ⟨rfl, rfl, rfl⟩

/-! Claim C4. -/

/-- A maximal-length body: 291 characters, exactly `300 - len("Read post")`. -/
def longBody : String := String.mk (List.replicate 291 'a')

set_option maxRecDepth 8000 in
/-- Claim C4 is violated by the code: `truncate_text` reserves space only
for the link label, not for the joining space it appends to the body, so at
the production limit 300 a 291-character body renders at 301 > 300
characters. -/
theorem c4_truncation_overflow :
    renderLength (truncate_text cfg0 longBody "http://x/a" 300) = 301 ∧
    ¬ renderLength (truncate_text cfg0 longBody "http://x/a" 300) ≤ 300 := by
  decide

/-! Claim C5. -/

/-- A configuration with the splitter marker set to the pipe character. -/
def cfgSplit : Config := ⟨none, some "|", ""⟩

/-- An entry whose description contains the splitter but whose title does
not. -/
def entrySplitDesc : Entry := ⟨"t", "http://x/p", "1", "a|b", none, none⟩

/-- Claim C5 counterexample: the splitter marker occurs in the entry's
description, yet the message body is the unmodified title, not the text
after the marker in the description — `truncate_text` is applied to the
title only. -/
theorem c5_counterexample :
    strContains entrySplitDesc.description "|" = true ∧
    pyStrip (afterFirst entrySplitDesc.description "|") = "b" ∧
    (entryMessage cfgSplit entrySplitDesc).body = "t" ++ " " ∧
    ("t" ++ " " : String) ≠ "b" ++ " " := by
  decide

/-- Claim C5 (amended): the splitter rule is applied to the entry's *title*,
the text actually passed as the message body. If a splitter is configured
and occurs in the title, the body is the text after its first occurrence
there, whitespace-stripped; otherwise the body is the title unmodified
(up to the 300-character truncation, excluded here by the length bounds). -/
theorem c5_splitter_on_title (cfg : Config) (e : Entry) :
    (∀ sp, truthy cfg.SPLITTER = some sp → strContains e.title sp = true →
      (pyStrip (afterFirst e.title sp)).length ≤ 291 →
      (entryMessage cfg e).body = pyStrip (afterFirst e.title sp) ++ " ") ∧
    (∀ sp, truthy cfg.SPLITTER = some sp → strContains e.title sp = false →
      e.title.length ≤ 291 → (entryMessage cfg e).body = e.title ++ " ") ∧
    (truthy cfg.SPLITTER = none → e.title.length ≤ 291 →
      (entryMessage cfg e).body = e.title ++ " ") := by
  have h9 : ("Read post" : String).length = 9 := rfl
  refine ⟨?_, ?_, ?_⟩
  · intro sp h1 h2 h3
    have hcond : ¬ (((pyStrip (afterFirst e.title sp)).length : Int) >
        (300 : Int) - (("Read post" : String).length : Int)) := by
      rw [h9]; push_cast; omega
    simp [entryMessage, truncate_text, h1, h2, hcond]
  · intro sp h1 h2 h3
    have hcond : ¬ ((e.title.length : Int) >
        (300 : Int) - (("Read post" : String).length : Int)) := by
      rw [h9]; push_cast; omega
    simp [entryMessage, truncate_text, h1, h2, hcond]
  · intro h1 h3
    have hcond : ¬ ((e.title.length : Int) >
        (300 : Int) - (("Read post" : String).length : Int)) := by
      rw [h9]; push_cast; omega
    simp [entryMessage, truncate_text, h1, hcond]

/-- An entry whose title contains the splitter marker. -/
def entrySplitTitle : Entry := ⟨"pre| post ", "http://x/p", "1", "d", none, none⟩

/-- Witness for the amended claim C5 at a concrete entry. -/
theorem c5_witness :
    (entryMessage cfgSplit entrySplitTitle).body = "post" ++ " " := by
  have h := c5_splitter_on_title cfgSplit entrySplitTitle
  have hb := h.1 "|" (by decide) (by decide) (by decide)
  rw [hb]
  decide

/-! Claim C7. -/

/-- Claim C7: only the first media candidate under the selected key is
considered; an image is fetched iff that candidate's URL passes `is_image`
(case-insensitive raster extensions — `.webp` fails, `.png` passes); and a
fetch with a non-200 response attaches no image, the post degrading to a
text-only publish call rather than failing. -/
theorem c7_media_gating (cfg : Config) (fetch : String → Option (List Nat))
    (parse : String → Int) (lp sd : Option Int) (e : Entry)
    (m : MediaItem) (rest : List MediaItem) (u : String)
    (hm : getMedia e = some (m :: rest)) (hu : m.url = some u) :
    (is_image u = false → selectImage fetch e = Except.ok none) ∧
    (is_image u = true → selectImage fetch e = Except.ok (fetch u)) ∧
    (∀ e2 rest2, getMedia e2 = some (m :: rest2) →
      selectImage fetch e2 = selectImage fetch e) ∧
    (is_image u = true → fetch u = none →
      ∀ st : RunState, st.aborted = false → entrySkipped cfg e = false →
        afterDate (parse e.published) lp = true →
        afterDate (parse e.published) sd = true →
        stepEntry cfg fetch parse lp sd st e =
          ⟨st.posts ++ [(e, Call.sendPost (entryMessage cfg e))],
           st.writes ++ [e.published], some e.published, false⟩) ∧
    is_image "http://x/pic.webp" = false ∧ is_image "http://x/pic.PNG" = true := by
  refine ⟨?_, ?_, ?_, ?_, by decide, by decide⟩
  · intro hfalse; simp [selectImage, hm, hu, hfalse]
  · intro htrue; simp [selectImage, hm, hu, htrue]
  · intro e2 rest2 hm2; simp [selectImage, hm, hm2]
  · intro htrue hfetch st hab hsk h1 h2
    have himg : selectImage fetch e = Except.ok none := by
      simp [selectImage, hm, hu, htrue, hfetch]
    have hp : publishes cfg parse lp sd e = true := by
      unfold publishes; simp [hsk, h1, h2]
    have hstep := stepEntry_publish hab hp himg
    rw [hstep]
    rfl

/-- An entry carrying one PNG media candidate under the Mastodon key. -/
def entryPng : Entry :=
  ⟨"t", "http://x/p", "1", "d", some [⟨some "http://x/pic.PNG"⟩], none⟩

/-- Witness for claim C7: a first candidate ending in `.PNG` triggers the
fetch (here failing with non-200), and the image attached is the fetch
result. -/
theorem c7_witness :
    selectImage fetch0 entryPng = Except.ok none ∧
    is_image "http://x/pic.webp" = false := by
  have h := c7_media_gating cfg0 fetch0 parse0 none none entryPng
    ⟨some "http://x/pic.PNG"⟩ [] "http://x/pic.PNG" (by decide) (by decide)
  refine ⟨?_, h.2.2.2.2.1⟩
  have h2 := h.2.1 (by decide)
  rw [h2]
  rfl

/-! Claim C10. -/

/-- Claim C10: when an entry that passes the filters has a non-empty media
collection whose first candidate lacks a `url` key, `is_image` is applied
to an absent value and the loop body aborts the run instead of degrading to
a text-only post: no publish call, no cursor write, and every later entry is
left unprocessed. -/
theorem c10_media_url_abort (cfg : Config) (fetch : String → Option (List Nat))
    (parse : String → Int) (lp sd : Option Int) (st : RunState) (e : Entry)
    (m : MediaItem) (rest : List MediaItem)
    (hm : getMedia e = some (m :: rest)) (hu : m.url = none)
    (hab : st.aborted = false) (hskip : entrySkipped cfg e = false)
    (h1 : afterDate (parse e.published) lp = true)
    (h2 : afterDate (parse e.published) sd = true) :
    selectImage fetch e = Except.error () ∧
    mediaOk e = false ∧
    stepEntry cfg fetch parse lp sd st e = ⟨st.posts, st.writes, st.file, true⟩ ∧
    (∀ st2 : RunState, st2.aborted = true →
      ∀ e2, stepEntry cfg fetch parse lp sd st2 e2 = st2) := by
  have herr : selectImage fetch e = Except.error () := by
    simp [selectImage, hm, hu]
  refine ⟨herr, ?_, ?_, ?_⟩
  · simp [mediaOk, hm, hu]
  · exact stepEntry_publish_err hab (by unfold publishes; simp [hskip, h1, h2]) herr
  · intro st2 h2ab e2
    exact stepEntry_of_aborted e2 h2ab

/-- An entry whose single media candidate has no `url` key. -/
def entryNoUrl : Entry :=
  ⟨"t", "http://x/p", "1", "d", some [⟨none⟩], none⟩

/-- Witness for claim C10 at a concrete entry and state. -/
theorem c10_witness :
    selectImage fetch0 entryNoUrl = Except.error () ∧
    stepEntry cfg0 fetch0 parse0 none none (initState none) entryNoUrl =
      ⟨[], [], none, true⟩ := by
  have h := c10_media_url_abort cfg0 fetch0 parse0 none none (initState none)
    entryNoUrl ⟨none⟩ [] (by decide) (by decide) (by decide) (by decide)
    (by decide) (by decide)
  exact ⟨h.1, h.2.2.1⟩

/-! Claim C9. -/

/-- A login oracle failing on the first attempt with a rate-limit error
and succeeding on every later attempt. -/
def loginEx : Nat → Except String Unit :=
  fun i => if i == 0 then Except.error "RateLimitExceeded hit" else Except.ok ()

/-- Claim C9 is violated by the code: `client = Client()` binds the client
before `login` runs, so after the first caught login failure the
`while client is None` condition is false and `get_client` returns the
unauthenticated client — after sleeping 86400 seconds and logging the
rate-limited failure — even though every later login attempt would
succeed and spare fuel remains. Only a first attempt whose login succeeds
yields an authenticated client (then with no failure events). -/
theorem c9_login_failure_returns_unauthenticated :
    get_client (fun _ => Except.ok ()) loginEx 5 0 =
      some (false, [AuthEvent.log "Rate Limited", AuthEvent.sleep 86400,
        AuthEvent.log "RateLimitExceeded hit"]) ∧
    get_client (fun _ => Except.ok ()) (fun _ => Except.ok ()) 5 0 =
      some (true, []) := by
  constructor
  · decide
  · decide

/-! Run-level invariants of the synchronization loop. -/

theorem publishes_parts {cfg : Config} {parse : String → Int} {lp sd : Option Int}
    {e : Entry} (hp : publishes cfg parse lp sd e = true) :
    entrySkipped cfg e = false ∧ afterDate (parse e.published) lp = true ∧
      afterDate (parse e.published) sd = true := by
  unfold publishes at hp
  simp only [Bool.and_eq_true, Bool.not_eq_true'] at hp
  exact ⟨hp.1, hp.2.1, hp.2.2⟩

theorem selectImage_ok_of_mediaOk (fetch : String → Option (List Nat)) (e : Entry)
    (h : mediaOk e = true) : ∃ img, selectImage fetch e = Except.ok img := by
  unfold mediaOk at h
  cases hg : getMedia e with
  | none => exact ⟨none, by simp [selectImage, hg]⟩
  | some l =>
    cases l with
    | nil => exact ⟨none, by simp [selectImage, hg]⟩
    | cons m rest =>
      rw [hg] at h
      have h2 : m.url.isSome = true := h
      cases hu : m.url with
      | none => rw [hu] at h2; exact absurd h2 (by simp)
      | some u =>
        by_cases hi : is_image u = true
        · exact ⟨fetch u, by simp [selectImage, hg, hu, hi]⟩
        · have hi2 : is_image u = false := by revert hi; cases is_image u <;> simp
          exact ⟨none, by simp [selectImage, hg, hu, hi2]⟩

theorem runEntries_of_aborted (cfg : Config) (fetch : String → Option (List Nat))
    (parse : String → Int) (lp sd : Option Int) (st : RunState)
    (h : st.aborted = true) :
    ∀ l : List Entry, runEntries cfg fetch parse lp sd st l = st := by
  intro l
  induction l with
  | nil => rfl
  | cons e rest ih =>
    show runEntries cfg fetch parse lp sd (stepEntry cfg fetch parse lp sd st e) rest = st
    rw [stepEntry_of_aborted e h]
    exact ih

theorem runEntries_posts_sublist (cfg : Config) (fetch : String → Option (List Nat))
    (parse : String → Int) (lp sd : Option Int) :
    ∀ (l : List Entry) (st : RunState),
      ∃ t, (runEntries cfg fetch parse lp sd st l).posts = st.posts ++ t ∧
        (t.map Prod.fst).Sublist l := by
  intro l
  induction l with
  | nil => intro st; exact ⟨[], by simp [runEntries], by simp⟩
  | cons e rest ih =>
    intro st
    by_cases hab : st.aborted = true
    · rw [runEntries_of_aborted cfg fetch parse lp sd st hab]
      exact ⟨[], by simp, by simp⟩
    · have hab2 : st.aborted = false := by revert hab; cases st.aborted <;> simp
      by_cases hp : publishes cfg parse lp sd e = true
      · cases himg : selectImage fetch e with
        | ok img =>
          show ∃ t,
            (runEntries cfg fetch parse lp sd (stepEntry cfg fetch parse lp sd st e) rest).posts =
              st.posts ++ t ∧ (t.map Prod.fst).Sublist (e :: rest)
          rw [stepEntry_publish hab2 hp himg]
          obtain ⟨t, ht, hsub⟩ :=
            ih ⟨st.posts ++ [(e, post_to_bluesky (entryMessage cfg e) img)],
              st.writes ++ [e.published], some e.published, false⟩
          refine ⟨(e, post_to_bluesky (entryMessage cfg e) img) :: t, ?_, ?_⟩
          · rw [ht]; simp
          · exact List.Sublist.cons₂ e hsub
        | error u =>
          cases u
          show ∃ t,
            (runEntries cfg fetch parse lp sd (stepEntry cfg fetch parse lp sd st e) rest).posts =
              st.posts ++ t ∧ (t.map Prod.fst).Sublist (e :: rest)
          rw [stepEntry_publish_err hab2 hp himg]
          rw [runEntries_of_aborted cfg fetch parse lp sd _ rfl]
          exact ⟨[], by simp, by simp⟩
      · have hpf : publishes cfg parse lp sd e = false := by
          revert hp; cases publishes cfg parse lp sd e <;> simp
        show ∃ t,
          (runEntries cfg fetch parse lp sd (stepEntry cfg fetch parse lp sd st e) rest).posts =
            st.posts ++ t ∧ (t.map Prod.fst).Sublist (e :: rest)
        rw [stepEntry_of_not_publishes hpf]
        obtain ⟨t, ht, hsub⟩ := ih st
        exact ⟨t, ht, hsub.cons e⟩

theorem runEntries_writes_lockstep (cfg : Config) (fetch : String → Option (List Nat))
    (parse : String → Int) (lp sd : Option Int) :
    ∀ (l : List Entry) (st : RunState),
      st.writes = st.posts.map (fun p => p.1.published) →
      (runEntries cfg fetch parse lp sd st l).writes =
        (runEntries cfg fetch parse lp sd st l).posts.map (fun p => p.1.published) := by
  intro l
  induction l with
  | nil => intro st h; exact h
  | cons e rest ih =>
    intro st h
    by_cases hab : st.aborted = true
    · rw [runEntries_of_aborted cfg fetch parse lp sd st hab]; exact h
    · have hab2 : st.aborted = false := by revert hab; cases st.aborted <;> simp
      have hunfold : runEntries cfg fetch parse lp sd st (e :: rest) =
          runEntries cfg fetch parse lp sd (stepEntry cfg fetch parse lp sd st e) rest := rfl
      rw [hunfold]
      by_cases hp : publishes cfg parse lp sd e = true
      · cases himg : selectImage fetch e with
        | ok img =>
          rw [stepEntry_publish hab2 hp himg]
          apply ih
          simp [h]
        | error u =>
          cases u
          rw [stepEntry_publish_err hab2 hp himg]
          apply ih
          exact h
      · have hpf : publishes cfg parse lp sd e = false := by
          revert hp; cases publishes cfg parse lp sd e <;> simp
        rw [stepEntry_of_not_publishes hpf]
        exact ih st h

theorem runEntries_posts_afterDate (cfg : Config) (fetch : String → Option (List Nat))
    (parse : String → Int) (lp sd : Option Int) :
    ∀ (l : List Entry) (st : RunState),
      (∀ p ∈ st.posts, afterDate (parse p.1.published) lp = true) →
      ∀ p ∈ (runEntries cfg fetch parse lp sd st l).posts,
        afterDate (parse p.1.published) lp = true := by
  intro l
  induction l with
  | nil => intro st h; exact h
  | cons e rest ih =>
    intro st h
    by_cases hab : st.aborted = true
    · rw [runEntries_of_aborted cfg fetch parse lp sd st hab]; exact h
    · have hab2 : st.aborted = false := by revert hab; cases st.aborted <;> simp
      show ∀ p ∈ (runEntries cfg fetch parse lp sd
        (stepEntry cfg fetch parse lp sd st e) rest).posts, _
      by_cases hp : publishes cfg parse lp sd e = true
      · cases himg : selectImage fetch e with
        | ok img =>
          rw [stepEntry_publish hab2 hp himg]
          apply ih
          intro p hpmem
          simp only [List.mem_append, List.mem_singleton] at hpmem
          cases hpmem with
          | inl hin => exact h p hin
          | inr heq => rw [heq]; exact (publishes_parts hp).2.1
        | error u =>
          cases u
          rw [stepEntry_publish_err hab2 hp himg]
          apply ih
          exact h
      · have hpf : publishes cfg parse lp sd e = false := by
          revert hp; cases publishes cfg parse lp sd e <;> simp
        rw [stepEntry_of_not_publishes hpf]
        exact ih st h

theorem runEntries_filter (cfg : Config) (fetch : String → Option (List Nat))
    (parse : String → Int) (lp sd : Option Int) :
    ∀ (l : List Entry) (st : RunState),
      (∀ e ∈ l, mediaOk e = true) → st.aborted = false →
      (runEntries cfg fetch parse lp sd st l).posts.map Prod.fst =
        st.posts.map Prod.fst ++ l.filter (publishes cfg parse lp sd) ∧
      (runEntries cfg fetch parse lp sd st l).aborted = false := by
  intro l
  induction l with
  | nil => intro st hwf hab; exact ⟨by simp [runEntries], hab⟩
  | cons e rest ih =>
    intro st hwf hab
    have hunfold : runEntries cfg fetch parse lp sd st (e :: rest) =
        runEntries cfg fetch parse lp sd (stepEntry cfg fetch parse lp sd st e) rest := rfl
    rw [hunfold]
    by_cases hp : publishes cfg parse lp sd e = true
    · obtain ⟨img, himg⟩ :=
        selectImage_ok_of_mediaOk fetch e (hwf e (List.mem_cons_self e rest))
      rw [stepEntry_publish hab hp himg]
      obtain ⟨h1, h2⟩ := ih
        ⟨st.posts ++ [(e, post_to_bluesky (entryMessage cfg e) img)],
          st.writes ++ [e.published], some e.published, false⟩
        (fun x hx => hwf x (List.mem_cons_of_mem e hx)) rfl
      refine ⟨?_, h2⟩
      rw [h1]
      simp [List.filter_cons, hp]
    · have hpf : publishes cfg parse lp sd e = false := by
        revert hp; cases publishes cfg parse lp sd e <;> simp
      rw [stepEntry_of_not_publishes hpf]
      obtain ⟨h1, h2⟩ := ih st (fun x hx => hwf x (List.mem_cons_of_mem e hx)) hab
      refine ⟨?_, h2⟩
      rw [h1]
      simp [List.filter_cons, hpf]

theorem runEntries_skip_erasure (cfg : Config) (fetch : String → Option (List Nat))
    (parse : String → Int) (lp sd : Option Int) :
    ∀ (l : List Entry) (st : RunState),
      runEntries cfg fetch parse lp sd st l =
        runEntries cfg fetch parse lp sd st
          (l.filter (fun e => !entrySkipped cfg e)) := by
  intro l
  induction l with
  | nil => intro st; rfl
  | cons e rest ih =>
    intro st
    by_cases hsk : entrySkipped cfg e = true
    · have hfe : (e :: rest).filter (fun x => !entrySkipped cfg x) =
          rest.filter (fun x => !entrySkipped cfg x) := by
        simp [List.filter_cons, hsk]
      rw [hfe]
      have hstep : runEntries cfg fetch parse lp sd st (e :: rest) =
          runEntries cfg fetch parse lp sd st rest := by
        show runEntries cfg fetch parse lp sd (stepEntry cfg fetch parse lp sd st e) rest = _
        rw [stepEntry_of_skipped hsk]
      rw [hstep]
      exact ih st
    · have hsk2 : entrySkipped cfg e = false := by
        revert hsk; cases entrySkipped cfg e <;> simp
      have hfe : (e :: rest).filter (fun x => !entrySkipped cfg x) =
          e :: rest.filter (fun x => !entrySkipped cfg x) := by
        simp [List.filter_cons, hsk2]
      rw [hfe]
      show runEntries cfg fetch parse lp sd (stepEntry cfg fetch parse lp sd st e) rest =
        runEntries cfg fetch parse lp sd (stepEntry cfg fetch parse lp sd st e)
          (rest.filter (fun x => !entrySkipped cfg x))
      exact ih (stepEntry cfg fetch parse lp sd st e)

/-! Claim C1. -/

/-- Claim C1: in a run started with persisted cursor `T` (and whose entries
all carry well-formed media, so the media branch cannot raise), no entry
with parsed publishedAt `≤ T` is ever published, and the published entries
are exactly, in order, the fetched entries (processed in reverse feed
order) that are newer than `T`, newer than the configured start boundary,
and not skip-tagged — each published exactly once. -/
theorem c1_resumability (cfg : Config) (fetch : String → Option (List Nat))
    (parse : String → Int) (s0 : String) (T : Int) (entries : List Entry)
    (hT : parse (pyStrip s0) = T)
    (hwf : ∀ e ∈ entries, mediaOk e = true) :
    (∀ p ∈ (runMain cfg fetch parse (some s0) entries).posts,
      T < parse p.1.published) ∧
    (runMain cfg fetch parse (some s0) entries).posts.map Prod.fst =
      entries.reverse.filter
        (publishes cfg parse (some T) (start_post_date cfg parse)) := by
  have hrm : runMain cfg fetch parse (some s0) entries =
      runEntries cfg fetch parse (some T) (start_post_date cfg parse)
        (initState (some s0)) entries.reverse := by
    simp only [runMain, read_last_posted_date, Option.map_some', hT]
  rw [hrm]
  constructor
  · intro p hp
    have h := runEntries_posts_afterDate cfg fetch parse (some T)
      (start_post_date cfg parse) entries.reverse (initState (some s0))
      (by intro q hq; exact absurd hq (by simp [initState])) p hp
    simpa [afterDate] using h
  · have h := runEntries_filter cfg fetch parse (some T)
      (start_post_date cfg parse) entries.reverse (initState (some s0))
      (by intro e he; exact hwf e (List.mem_reverse.mp he)) rfl
    simpa [initState] using h.1

/-- Witness for claim C1: cursor "22" (parsing to 2), one stale entry and
one fresh entry; only the fresh entry is published. -/
theorem c1_witness :
    (∀ p ∈ (runMain cfg0 fetch0 parse0 (some "22") [mkEntry "1", mkEntry "333"]).posts,
      (2 : Int) < parse0 p.1.published) ∧
    (runMain cfg0 fetch0 parse0 (some "22") [mkEntry "1", mkEntry "333"]).posts.map Prod.fst =
      ([mkEntry "1", mkEntry "333"] : List Entry).reverse.filter
        (publishes cfg0 parse0 (some 2) (start_post_date cfg0 parse0)) :=
  c1_resumability cfg0 fetch0 parse0 "22" 2 [mkEntry "1", mkEntry "333"]
    (by decide) (by decide)

/-! Claim C2. -/

/-- Claim C2 counterexample: the in-memory cursor variable is never updated
inside the loop, so a feed whose entries arrive in chronological (not
reverse-chronological) order is published in decreasing timestamp order. -/
theorem c2_counterexample :
    (runMain cfg0 fetch0 parse0 none [mkEntry "1", mkEntry "22"]).posts.map
      (fun p => parse0 p.1.published) = [2, 1] ∧
    ¬ ((runMain cfg0 fetch0 parse0 none [mkEntry "1", mkEntry "22"]).posts.map
      (fun p => parse0 p.1.published)).Pairwise (fun a b => a < b) := by
  constructor
  · decide
  · decide

/-- The published timestamps of a run are pairwise increasing whenever the
fetched feed is reverse-chronological: the publish list is a sublist of the
reversed feed. -/
theorem runMain_posts_pairwise (cfg : Config) (fetch : String → Option (List Nat))
    (parse : String → Int) (file0 : Option String) (entries : List Entry)
    (hrev : entries.Pairwise (fun a b => parse b.published < parse a.published)) :
    ((runMain cfg fetch parse file0 entries).posts.map
      (fun p => parse p.1.published)).Pairwise (fun a b => a < b) := by
  have key : ((runMain cfg fetch parse file0 entries).posts.map Prod.fst).Sublist
      entries.reverse := by
    obtain ⟨t, ht, hs⟩ := runEntries_posts_sublist cfg fetch parse
      ((read_last_posted_date file0).map parse) (start_post_date cfg parse)
      entries.reverse (initState file0)
    simp only [runMain]
    rw [ht]
    simpa [initState] using hs
  have hpairs : ((runMain cfg fetch parse file0 entries).posts.map Prod.fst).Pairwise
      (fun a b => parse a.published < parse b.published) := by
    apply List.Pairwise.sublist key
    rw [List.pairwise_reverse]
    exact hrev
  have hmm : (runMain cfg fetch parse file0 entries).posts.map
      (fun p => parse p.1.published) =
      ((runMain cfg fetch parse file0 entries).posts.map Prod.fst).map
        (fun e => parse e.published) := by
    rw [List.map_map]
    rfl
  rw [hmm, List.pairwise_map]
  exact hpairs

/-- Claim C2 (amended): when the fetched entries are reverse-chronological
(strictly decreasing publishedAt, the feed's assumed natural order), the
sequence of publish calls of a run is strictly increasing in parsed
publishedAt. -/
theorem c2_publish_order (cfg : Config) (fetch : String → Option (List Nat))
    (parse : String → Int) (file0 : Option String) (entries : List Entry)
    (hrev : entries.Pairwise (fun a b => parse b.published < parse a.published)) :
    ((runMain cfg fetch parse file0 entries).posts.map
      (fun p => parse p.1.published)).Pairwise (fun a b => a < b) :=
  runMain_posts_pairwise cfg fetch parse file0 entries hrev

/-- Witness for the amended claim C2 on a concrete reverse-chronological
feed. -/
theorem c2_witness :
    ([mkEntry "22", mkEntry "1"] : List Entry).Pairwise
      (fun a b => parse0 b.published < parse0 a.published) ∧
    ((runMain cfg0 fetch0 parse0 none [mkEntry "22", mkEntry "1"]).posts.map
      (fun p => parse0 p.1.published)).Pairwise (fun a b => a < b) :=
  ⟨by decide,
    c2_publish_order cfg0 fetch0 parse0 none [mkEntry "22", mkEntry "1"] (by decide)⟩

/-! Claim C3. -/

/-- Claim C3 counterexample: with a chronologically ordered feed, the
cursor file receives "55555" and then "333" — the second persisted value is
not greater than the first. -/
theorem c3_counterexample :
    (runMain cfg0 fetch0 parse0 none [mkEntry "333", mkEntry "55555"]).writes =
      ["55555", "333"] ∧
    ¬ (((runMain cfg0 fetch0 parse0 none [mkEntry "333", mkEntry "55555"]).writes.map
      parse0).Pairwise (fun a b => a < b)) := by
  constructor
  · decide
  · decide

/-- Claim C3 (amended): the cursor is written exactly once per publish call,
immediately after it, carrying that entry's published string (never for a
skipped or filtered entry); and provided the fetched entries are
reverse-chronological, successive writes strictly increase in parsed
timestamp and every write is strictly newer than the pre-run persisted
cursor. -/
theorem c3_cursor_discipline (cfg : Config) (fetch : String → Option (List Nat))
    (parse : String → Int) (s0 : String) (T : Int) (entries : List Entry)
    (hT : parse (pyStrip s0) = T)
    (hrev : entries.Pairwise (fun a b => parse b.published < parse a.published)) :
    (runMain cfg fetch parse (some s0) entries).writes =
      (runMain cfg fetch parse (some s0) entries).posts.map
        (fun p => p.1.published) ∧
    ((runMain cfg fetch parse (some s0) entries).writes.map parse).Pairwise
      (fun a b => a < b) ∧
    (∀ w ∈ (runMain cfg fetch parse (some s0) entries).writes, T < parse w) := by
  have hlock : (runMain cfg fetch parse (some s0) entries).writes =
      (runMain cfg fetch parse (some s0) entries).posts.map
        (fun p => p.1.published) := by
    simp only [runMain]
    exact runEntries_writes_lockstep cfg fetch parse
      ((read_last_posted_date (some s0)).map parse) (start_post_date cfg parse)
      entries.reverse (initState (some s0)) rfl
  refine ⟨hlock, ?_, ?_⟩
  · rw [hlock, List.map_map]
    have := runMain_posts_pairwise cfg fetch parse (some s0) entries hrev
    convert this using 2
  · intro w hw
    rw [hlock] at hw
    obtain ⟨p, hpmem, hpw⟩ := List.mem_map.mp hw
    have hrm : runMain cfg fetch parse (some s0) entries =
        runEntries cfg fetch parse (some T) (start_post_date cfg parse)
          (initState (some s0)) entries.reverse := by
      simp only [runMain, read_last_posted_date, Option.map_some', hT]
    rw [hrm] at hpmem
    have h := runEntries_posts_afterDate cfg fetch parse (some T)
      (start_post_date cfg parse) entries.reverse (initState (some s0))
      (by intro q hq; exact absurd hq (by simp [initState])) p hpmem
    rw [hpw] at h
    simpa [afterDate] using h

/-- Witness for the amended claim C3: cursor "22", reverse-chronological
entries "4444" then "333"; writes are ["333", "4444"], increasing and above
the cursor. -/
theorem c3_witness :
    (runMain cfg0 fetch0 parse0 (some "22") [mkEntry "4444", mkEntry "333"]).writes =
      (runMain cfg0 fetch0 parse0 (some "22") [mkEntry "4444", mkEntry "333"]).posts.map
        (fun p => p.1.published) ∧
    ((runMain cfg0 fetch0 parse0 (some "22") [mkEntry "4444", mkEntry "333"]).writes.map
      parse0).Pairwise (fun a b => a < b) ∧
    (∀ w ∈ (runMain cfg0 fetch0 parse0 (some "22") [mkEntry "4444", mkEntry "333"]).writes,
      (2 : Int) < parse0 w) :=
  c3_cursor_discipline cfg0 fetch0 parse0 "22" 2 [mkEntry "4444", mkEntry "333"]
    (by decide) (by decide)

/-! Claim C6. -/

/-- Claim C6: skip-tagged entries (description containing the truthy
SKIP_TAG) are inert regardless of their timestamps — the whole run behaves
exactly as if they were absent from the feed; in particular a run whose
entries are all skip-tagged performs no publish call, performs no cursor
write, and leaves the cursor file byte-for-byte unchanged. -/
theorem c6_skip_tag_frame (cfg : Config) (fetch : String → Option (List Nat))
    (parse : String → Int) (file0 : Option String) (entries : List Entry) :
    runMain cfg fetch parse file0 entries =
      runMain cfg fetch parse file0
        (entries.filter (fun e => !entrySkipped cfg e)) ∧
    ((∀ e ∈ entries, entrySkipped cfg e = true) →
      (runMain cfg fetch parse file0 entries).posts = [] ∧
      (runMain cfg fetch parse file0 entries).writes = [] ∧
      (runMain cfg fetch parse file0 entries).file = file0) := by
  have hmain : runMain cfg fetch parse file0 entries =
      runMain cfg fetch parse file0
        (entries.filter (fun e => !entrySkipped cfg e)) := by
    simp only [runMain]
    rw [runEntries_skip_erasure cfg fetch parse
      ((read_last_posted_date file0).map parse) (start_post_date cfg parse)
      entries.reverse (initState file0)]
    rw [List.filter_reverse]
  refine ⟨hmain, ?_⟩
  intro hall
  rw [hmain]
  have hnil : entries.filter (fun e => !entrySkipped cfg e) = [] := by
    rw [List.filter_eq_nil_iff]
    intro e he
    simp [hall e he]
  rw [hnil]
  exact ⟨rfl, rfl, rfl⟩

/-- A configuration with the skip marker set. -/
def cfgSkip : Config := ⟨some "#nobot", none, ""⟩

/-- An entry whose description contains the skip marker. -/
def entryNobot : Entry := ⟨"t", "http://x/p", "1", "x #nobot y", none, none⟩

/-- Witness for claim C6: a skip-tagged entry produces no publish call and
leaves the previously persisted cursor file untouched. -/
theorem c6_witness :
    (runMain cfgSkip fetch0 parse0 (some "5") [entryNobot]).posts = [] ∧
    (runMain cfgSkip fetch0 parse0 (some "5") [entryNobot]).file = some "5" := by
  have h := c6_skip_tag_frame cfgSkip fetch0 parse0 (some "5") [entryNobot]
  have h2 := h.2 (by decide)
  exact ⟨h2.1, h2.2.2⟩

end Rss2Bsky
